import Mathlib

/-!
Verification of the Install Bridge core module (`src/core.js`).

The embedding models JavaScript values with the inductive type `JSVal`
(undefined, null, booleans, strings, arrays, objects; numbers do not occur
in any code path the specification talks about, so they are omitted from
the value universe).  JavaScript strings are modelled as Lean `String`
(lengths count scalar values rather than UTF-16 code units), objects as
association lists in insertion order, and the platform's `new URL`
syntactic check and `JSON.parse`/`JSON.stringify` by executable Lean
functions faithful to the fragment the configuration format exercises.
-/

namespace InstallBridge

/-- JavaScript values, as used by the core module (no numbers or functions:
none of the specified code paths produces or consumes them). -/
inductive JSVal : Type where
  | undefined : JSVal
  | null : JSVal
  | bool (b : Bool) : JSVal
  | str (s : String) : JSVal
  | arr (elems : List JSVal) : JSVal
  | obj (fields : List (String × JSVal)) : JSVal

namespace JSVal

/-- JavaScript truthiness of a value (`!v` is `!truthy v`). -/
def truthy : JSVal → Bool
  | .undefined => false
  | .null => false
  | .bool b => b
  | .str s => s != ""
  | .arr _ => true
  | .obj _ => true

/-- JavaScript `typeof`. -/
def typeOf : JSVal → String
  | .undefined => "undefined"
  | .null => "object"
  | .bool _ => "boolean"
  | .str _ => "string"
  | .arr _ => "object"
  | .obj _ => "object"

/-- First binding of a key in an object's field list (objects built by the
core never carry duplicate keys). -/
def lookupField (fields : List (String × JSVal)) (k : String) : Option JSVal :=
  match fields.find? (fun kv => kv.1 == k) with
  | some kv => some kv.2
  | none => none

/-- Canonical numeric index access, for arrays and strings. -/
def natIndex? (k : String) : Option Nat :=
  match k.toNat? with
  | some i => if toString i == k then some i else none
  | none => none

/-- Property access `v[k]`; missing properties and access on primitives
yield `undefined` (the claims never exercise the throwing
`null`/`undefined` receiver case, which the theorems exclude by
hypothesis where it matters). -/
def getField : JSVal → String → JSVal
  | .obj fields, k => (lookupField fields k).getD .undefined
  | .arr xs, k =>
    match natIndex? k with
    | some i => (xs.get? i).getD .undefined
    | none => .undefined
  | .str s, k =>
    match natIndex? k with
    | some i => ((s.data.get? i).map (fun c => JSVal.str ⟨[c]⟩)).getD .undefined
    | none => .undefined
  | _, _ => .undefined

/-- `Object.keys`. -/
def objKeys : JSVal → List String
  | .obj fields => fields.map (fun kv => kv.1)
  | .arr xs => (List.range xs.length).map toString
  | .str s => (List.range s.length).map toString
  | _ => []

/-- `Object.values`. -/
def objValues : JSVal → List JSVal
  | .obj fields => fields.map (fun kv => kv.2)
  | .arr xs => xs
  | .str s => s.data.map (fun c => JSVal.str ⟨[c]⟩)
  | _ => []

/-- JavaScript `a || b`. -/
def jsOr (a b : JSVal) : JSVal := if truthy a then a else b

end JSVal

open JSVal

-- ============================================================================
-- Model of the platform's `new URL(value)` syntactic check
-- ============================================================================

/-- Characters allowed in a URL scheme after the leading letter. -/
def isSchemeTailChar (c : Char) : Bool :=
  c.isAlpha || c.isDigit || c == '+' || c == '-' || c == '.'

/-- Split `scheme ":" rest`; `none` when no well-formed scheme prefix exists. -/
def splitSchemeAux : List Char → Option (List Char × List Char)
  | [] => none
  | c :: rest =>
    if c == ':' then some ([], rest)
    else if isSchemeTailChar c then
      match splitSchemeAux rest with
      | some (sch, r) => some (c :: sch, r)
      | none => none
    else none

def splitScheme (l : List Char) : Option (List Char × List Char) :=
  match l with
  | c :: rest => if c.isAlpha then splitSchemeAux (c :: rest) else none
  | [] => none

/-- The special schemes of the WHATWG URL standard. -/
def specialSchemes : List (List Char) :=
  ["http".data, "https".data, "ws".data, "wss".data, "ftp".data]

def isWsChar (c : Char) : Bool :=
  c == ' ' || c == '\t' || c == '\n' || c == '\r'

/-- Host characters that make `new URL` reject an authority. -/
def isForbiddenHostChar (c : Char) : Bool :=
  isWsChar c || c == '<' || c == '>' || c == '@' || c == '[' || c == ']' ||
  c == '^' || c == '|' || c == '"'

/-- The authority's host is the part after the last `@` (userinfo split). -/
def afterLastAt (l : List Char) : List Char :=
  (l.reverse.takeWhile (fun c => c != '@')).reverse

/-- Model of WHATWG URL parsing success on a character list: a scheme is
required; special schemes additionally require a non-empty well-formed
host (with an all-digits port when present); `file:` and non-special
schemes accept any remainder. -/
def validURLChars (l : List Char) : Bool :=
  match splitScheme l with
  | none => false
  | some (sch, rest) =>
    let scheme := sch.map Char.toLower
    if scheme == "file".data then true
    else if specialSchemes.contains scheme then
      let auth := (rest.dropWhile (fun c => c == '/' || c == '\\')).takeWhile
        (fun c => !(c == '/' || c == '\\' || c == '?' || c == '#'))
      let host := afterLastAt auth
      let hostname := host.takeWhile (fun c => c != ':')
      let port := (host.dropWhile (fun c => c != ':')).drop 1
      !hostname.isEmpty && hostname.all (fun c => !isForbiddenHostChar c) &&
        port.all (fun c => c.isDigit)
    else true

def validURLString (s : String) : Bool := validURLChars s.data

/-- `isValidURL` from `src/core.js`: strings accepted by `new URL`. -/
def isValidURL (value : JSVal) : Bool :=
  match value with
  | .str s => validURLString s
  | _ => false

-- ============================================================================
-- Core module (`src/core.js`)
-- ============================================================================

/-- `PLATFORM_ORDER` from `src/core.js`. -/
def PLATFORM_ORDER : List String := ["darwin", "win32", "linux"]

structure ValidationResult where
  valid : Bool
  errors : List String
deriving DecidableEq

def invalidPlatformMsg (platform : String) : String :=
  "invalid platform: " ++ platform ++ " (must be darwin, win32, or linux)"

def invalidURLMsg (platform : String) : String :=
  "installer for " ++ platform ++ " must be a valid HTTP(S) URL"

/-- `validateConfig` from `src/core.js`; `errors.push` becomes list append
and `forEach` a left fold. -/
def validateConfig (config : JSVal) : ValidationResult :=
  if !truthy config || typeOf config != "object" then
    { valid := false, errors := ["Config must be an object"] }
  else
    let errs0 : List String := []
    let errs1 :=
      if !truthy (getField config "name") || typeOf (getField config "name") != "string" then
        errs0 ++ ["name is required and must be a string"]
      else errs0
    let installers := getField config "installers"
    let errs2 :=
      if !truthy installers || typeOf installers != "object" then
        errs1 ++ ["installers is required and must be an object"]
      else
        let platforms := objKeys installers
        let errsA :=
          if platforms.length == 0 then
            errs1 ++ ["at least one installer platform must be specified"]
          else errs1
        platforms.foldl (fun errs platform =>
          let errsB :=
            if !(PLATFORM_ORDER.contains platform) then
              errs ++ [invalidPlatformMsg platform]
            else errs
          let url := getField installers platform
          if !isValidURL url then errsB ++ [invalidURLMsg platform] else errsB) errsA
    { valid := errs2.length == 0, errors := errs2 }

/-- Lowercasing as used for user agents (`toLowerCase`). -/
def toLowerStr (s : String) : String := ⟨s.data.map Char.toLower⟩

/-- Prefix test on character lists. -/
def isPre : List Char → List Char → Bool
  | [], _ => true
  | _ :: _, [] => false
  | a :: l1, b :: l2 => a == b && isPre l1 l2

/-- Substring test (`String.prototype.includes`). -/
def hasInfix : List Char → List Char → Bool
  | [], needle => isPre needle []
  | hay@(_ :: t), needle => isPre needle hay || hasInfix t needle

def strContains (hay needle : String) : Bool := hasInfix hay.data needle.data

/-- `detectOS` from `src/core.js`; `none` models a `null`/missing user agent. -/
def detectOS (userAgent : Option String) : String :=
  match userAgent with
  | none => "unknown"
  | some s =>
    if s == "" then "unknown"
    else
      let ua := toLowerStr s
      if strContains ua "mac" || strContains ua "darwin" ||
          strContains ua "iphone" || strContains ua "ipad" then "darwin"
      else if strContains ua "linux" || strContains ua "android" then "linux"
      else if strContains ua "win" then "win32"
      else "unknown"

/-- `getFirstInstaller` from `src/core.js` (the `= {}` default applies to a
missing, i.e. `undefined`, argument). -/
def getFirstInstaller (installersArg : JSVal) : JSVal :=
  let installers := match installersArg with | .undefined => JSVal.obj [] | x => x
  match PLATFORM_ORDER.find? (fun p => truthy (getField installers p)) with
  | some p => getField installers p
  | none => jsOr ((objValues installers).headD .undefined) .null

structure InstallTarget where
  available : Bool
  platform : String
  url : Option JSVal := none
  fallback : Option JSVal := none

/-- `getInstallTarget` from `src/core.js`. -/
def getInstallTarget (config : JSVal) (os : String) : InstallTarget :=
  let installers := jsOr (getField config "installers") (.obj [])
  if !truthy (getField installers os) then
    { available := false, platform := os,
      fallback := some (jsOr (jsOr (getField config "fallback")
        (getField config "homepage")) .null) }
  else
    { available := true, platform := os, url := some (getField installers os) }

mutual
/-- JavaScript template-literal stringification; array elements
stringify recursively with `null`/`undefined` as empty. -/
def jsToString : JSVal → String
  | .undefined => "undefined"
  | .null => "null"
  | .bool true => "true"
  | .bool false => "false"
  | .str s => s
  | .arr xs => jsArrJoin xs
  | .obj _ => "[object Object]"

def jsArrJoin : List JSVal → String
  | [] => ""
  | [v] =>
    match v with
    | .null => ""
    | .undefined => ""
    | w => jsToString w
  | v :: rest =>
    (match v with
     | .null => ""
     | .undefined => ""
     | w => jsToString w) ++ "," ++ jsArrJoin rest
end

/-- The `.length` property: defined for strings and arrays, `undefined`
otherwise (`none` feeds JavaScript's `NaN` arithmetic below). -/
def jsLen : JSVal → Option Nat
  | .str s => some s.length
  | .arr xs => some xs.length
  | _ => none

/-- Addition where `none` models `NaN`/`undefined` operands. -/
def optAdd (a b : Option Nat) : Option Nat :=
  match a, b with
  | some x, some y => some (x + y)
  | _, _ => none

/-- Interpolation of a possibly-`NaN` number. -/
def showNum : Option Nat → String
  | some n => toString n
  | none => "NaN"

/-- Interpolation of `h / 2` for integer `h` (JavaScript division may
produce a `.5` fraction); the argument is in half units. -/
def showHalfNum : Option Nat → String
  | none => "NaN"
  | some h => if h % 2 == 0 then toString (h / 2) else toString (h / 2) ++ ".5"

/-- `labelWidth + nameWidth / 2` expressed in half units. -/
def optHalves (lw nw : Option Nat) : Option Nat :=
  match lw, nw with
  | some a, some b => some (2 * a + b)
  | _, _ => none

/-- `style === 'flat'`. -/
def isFlatStyle : JSVal → Bool
  | .str s => s == "flat"
  | _ => false

/-- `generateBadge` from `src/core.js`.  Returns `none` exactly when the
JavaScript code would throw (`appName.length` with a nullish `config.name`);
all other non-string fields flow through as `undefined`/`NaN` text, as in
JavaScript. -/
def generateBadge (config : JSVal) : Option String :=
  let opts := jsOr (getField config "badge") (.obj [])
  let label := jsOr (getField opts "label") (.str "Install")
  let appName := getField config "name"
  let color := jsOr (getField opts "color") (.str "#0366d6")
  let style := jsOr (getField opts "style") (.str "flat")
  match appName with
  | .undefined => none
  | .null => none
  | _ =>
    let labelWidth := (jsLen label).map (fun n => n * 6 + 10)
    let nameWidth := (jsLen appName).map (fun n => n * 7 + 10)
    let totalWidth := optAdd labelWidth nameWidth
    if isFlatStyle style then
      some ("<svg xmlns=\"http://www.w3.org/2000/svg\" width=\"" ++ showNum totalWidth
        ++ "\" height=\"20\">\n  <linearGradient id=\"b\" x2=\"0\" y2=\"100%\">\n    <stop offset=\"0\" stop-color=\"#bbb\" stop-opacity=\".1\"/>\n    <stop offset=\"1\" stop-opacity=\".1\"/>\n  </linearGradient>\n  <clipPath id=\"a\">\n    <rect width=\""
        ++ showNum totalWidth
        ++ "\" height=\"20\" rx=\"3\" fill=\"#fff\"/>\n  </clipPath>\n  <g clip-path=\"url(#a)\">\n    <path fill=\"#555\" d=\"M0 0h"
        ++ showNum labelWidth
        ++ "v20H0z\"/>\n    <path fill=\"" ++ jsToString color ++ "\" d=\"M"
        ++ showNum labelWidth ++ " 0h" ++ showNum nameWidth ++ "v20H" ++ showNum labelWidth
        ++ "z\"/>\n    <path fill=\"url(#b)\" d=\"M0 0h" ++ showNum totalWidth
        ++ "v20H0z\"/>\n  </g>\n  <g fill=\"#fff\" text-anchor=\"middle\"\n     font-family=\"DejaVu Sans,Verdana,Geneva,sans-serif\" font-size=\"11\">\n    <text x=\""
        ++ showHalfNum labelWidth ++ "\" y=\"15\" fill=\"#010101\" fill-opacity=\".3\">"
        ++ jsToString label ++ "</text>\n    <text x=\"" ++ showHalfNum labelWidth
        ++ "\" y=\"14\">" ++ jsToString label ++ "</text>\n    <text x=\""
        ++ showHalfNum (optHalves labelWidth nameWidth)
        ++ "\" y=\"15\" fill=\"#010101\" fill-opacity=\".3\">" ++ jsToString appName
        ++ "</text>\n    <text x=\"" ++ showHalfNum (optHalves labelWidth nameWidth)
        ++ "\" y=\"14\">" ++ jsToString appName ++ "</text>\n  </g>\n</svg>")
    else
      some ("<svg xmlns=\"http://www.w3.org/2000/svg\" width=\"" ++ showNum totalWidth
        ++ "\" height=\"20\">\n  <rect width=\"" ++ showNum labelWidth
        ++ "\" height=\"20\" fill=\"#555\"/>\n  <rect x=\"" ++ showNum labelWidth
        ++ "\" width=\"" ++ showNum nameWidth ++ "\" height=\"20\" fill=\""
        ++ jsToString color ++ "\"/>\n  <text x=\"" ++ showHalfNum labelWidth
        ++ "\" y=\"14\" fill=\"#fff\"\n        font-family=\"Arial,sans-serif\" font-size=\"11\"\n        text-anchor=\"middle\">"
        ++ jsToString label ++ "</text>\n  <text x=\""
        ++ showHalfNum (optHalves labelWidth nameWidth)
        ++ "\" y=\"14\" fill=\"#fff\"\n        font-family=\"Arial,sans-serif\" font-size=\"11\"\n        text-anchor=\"middle\">"
        ++ jsToString appName ++ "</text>\n</svg>")

/-- `generateSnippets` from `src/core.js` (`badgePath` and `installURL`
default to `"./install-badge.svg"` and `null` at call sites). -/
def generateSnippets (config : JSVal) (badgePath : String) (installURL : JSVal) :
    String × String :=
  let targetURL := jsOr (jsOr installURL (getField config "homepage"))
    (getFirstInstaller (getField config "installers"))
  let markdown := "[![Install " ++ jsToString (getField config "name") ++ "](" ++ badgePath
    ++ ")](" ++ jsToString targetURL ++ ")"
  let html := "<a href=\"" ++ jsToString targetURL ++ "\">\n  <img src=\"" ++ badgePath
    ++ "\" alt=\"Install " ++ jsToString (getField config "name") ++ "\" />\n</a>"
  (markdown, html)

/-- `createTemplate` from `src/core.js` (the `appName` parameter defaults
to `"MyApp"` at call sites). -/
def createTemplate (appName : String) : JSVal :=
  .obj [
    ("name", .str appName),
    ("installers", .obj [
      ("darwin", .str ("https://github.com/user/repo/releases/latest/download/"
        ++ appName ++ "-macOS.dmg")),
      ("win32", .str ("https://github.com/user/repo/releases/latest/download/"
        ++ appName ++ "-windows.exe")),
      ("linux", .str ("https://github.com/user/repo/releases/latest/download/"
        ++ appName ++ "-linux.AppImage"))]),
    ("homepage", .str "https://github.com/user/repo"),
    ("fallback", .str "https://github.com/user/repo/releases"),
    ("badge", .obj [
      ("label", .str "Install"),
      ("color", .str "#0366d6"),
      ("style", .str "flat")])]

-- ============================================================================
-- Model of the platform's `JSON.stringify` / `JSON.parse`
-- (restricted to the number-free value universe the configs live in)
-- ============================================================================

def lbraceChar : Char := Char.ofNat 123

def rbraceChar : Char := Char.ofNat 125

mutual
/-- `true` when a value is free of `undefined` (such values are exactly the
JSON-representable ones in this universe). -/
def noUndefined : JSVal → Bool
  | .undefined => false
  | .arr xs => noUndefinedElems xs
  | .obj fs => noUndefinedFields fs
  | _ => true

def noUndefinedElems : List JSVal → Bool
  | [] => true
  | v :: rest => noUndefined v && noUndefinedElems rest

def noUndefinedFields : List (String × JSVal) → Bool
  | [] => true
  | (_, v) :: rest => noUndefined v && noUndefinedFields rest
end

/-- Lower-case hex digit for a value below 16. -/
def hexDigit (n : Nat) : Char :=
  if n < 10 then Char.ofNat (48 + n) else Char.ofNat (87 + n)

/-- JSON string escaping of one character. -/
def escChar (c : Char) : List Char :=
  if c == '"' then ['\\', '"']
  else if c == '\\' then ['\\', '\\']
  else if c.toNat < 32 then
    ['\\', 'u', '0', '0', hexDigit (c.toNat / 16), hexDigit (c.toNat % 16)]
  else [c]

/-- A JSON string literal for `s`. -/
def printStr (s : String) : List Char :=
  '"' :: s.data.flatMap escChar ++ ['"']

mutual
/-- JSON serialization of a value (`undefined` does not occur on the
inputs this is used with; it prints as `null` like an array hole). -/
def printJson : JSVal → List Char
  | .undefined => "null".data
  | .null => "null".data
  | .bool true => "true".data
  | .bool false => "false".data
  | .str s => printStr s
  | .arr xs => '[' :: printElems xs ++ [']']
  | .obj fs => lbraceChar :: printFields fs ++ [rbraceChar]

def printElems : List JSVal → List Char
  | [] => []
  | [v] => printJson v
  | v :: rest => printJson v ++ ',' :: printElems rest

def printFields : List (String × JSVal) → List Char
  | [] => []
  | [(k, v)] => printStr k ++ ':' :: printJson v
  | (k, v) :: rest => printStr k ++ ':' :: printJson v ++ ',' :: printFields rest
end

def jsonStringify (v : JSVal) : String := ⟨printJson v⟩

mutual
/-- Fuel sufficient for the recursive-descent parser on a printed value. -/
def jsonFuel : JSVal → Nat
  | .arr xs => jsonFuelElems xs + 2
  | .obj fs => jsonFuelFields fs + 2
  | _ => 1

def jsonFuelElems : List JSVal → Nat
  | [] => 0
  | v :: rest => jsonFuel v + jsonFuelElems rest + 2

def jsonFuelFields : List (String × JSVal) → Nat
  | [] => 0
  | (_, v) :: rest => jsonFuel v + jsonFuelFields rest + 2
end

def hexVal? (c : Char) : Option Nat :=
  if c.isDigit then some (c.toNat - 48)
  else if 'a' ≤ c && c ≤ 'f' then some (c.toNat - 87)
  else if 'A' ≤ c && c ≤ 'F' then some (c.toNat - 55)
  else none

def skipWs (l : List Char) : List Char := l.dropWhile isWsChar

/-- Scan a JSON string body after the opening quote; yields the decoded
characters and the input after the closing quote. -/
def parseStringBody : List Char → Option (List Char × List Char)
  | [] => none
  | c :: rest =>
    if c == '"' then some ([], rest)
    else if c == '\\' then
      match rest with
      | [] => none
      | e :: rest2 =>
        if e == '"' then (parseStringBody rest2).map (fun p => ('"' :: p.1, p.2))
        else if e == '\\' then (parseStringBody rest2).map (fun p => ('\\' :: p.1, p.2))
        else if e == '/' then (parseStringBody rest2).map (fun p => ('/' :: p.1, p.2))
        else if e == 'n' then (parseStringBody rest2).map (fun p => ('\n' :: p.1, p.2))
        else if e == 't' then (parseStringBody rest2).map (fun p => ('\t' :: p.1, p.2))
        else if e == 'r' then (parseStringBody rest2).map (fun p => ('\r' :: p.1, p.2))
        else if e == 'b' then (parseStringBody rest2).map (fun p => (Char.ofNat 8 :: p.1, p.2))
        else if e == 'f' then (parseStringBody rest2).map (fun p => (Char.ofNat 12 :: p.1, p.2))
        else if e == 'u' then
          match rest2 with
          | h1 :: h2 :: h3 :: h4 :: rest3 =>
            match hexVal? h1, hexVal? h2, hexVal? h3, hexVal? h4 with
            | some a, some b, some c2, some d =>
              (parseStringBody rest3).map
                (fun p => (Char.ofNat (a * 4096 + b * 256 + c2 * 16 + d) :: p.1, p.2))
            | _, _, _, _ => none
          | _ => none
        else none
    else if c.toNat < 32 then none
    else (parseStringBody rest).map (fun p => (c :: p.1, p.2))

mutual
/-- Recursive-descent JSON value parser (numbers are not part of the
modelled universe and are rejected). -/
def parseVal : Nat → List Char → Option (JSVal × List Char)
  | 0, _ => none
  | fuel + 1, l =>
    match skipWs l with
    | [] => none
    | c :: rest =>
      if c == '"' then (parseStringBody rest).map (fun p => (JSVal.str ⟨p.1⟩, p.2))
      else if c == 't' then
        match rest with
        | 'r' :: 'u' :: 'e' :: r => some (.bool true, r)
        | _ => none
      else if c == 'f' then
        match rest with
        | 'a' :: 'l' :: 's' :: 'e' :: r => some (.bool false, r)
        | _ => none
      else if c == 'n' then
        match rest with
        | 'u' :: 'l' :: 'l' :: r => some (.null, r)
        | _ => none
      else if c == '[' then
        match skipWs rest with
        | c2 :: r2 => if c2 == ']' then some (.arr [], r2) else parseArrElems fuel rest
        | [] => none
      else if c == lbraceChar then
        match skipWs rest with
        | c2 :: r2 =>
          if c2 == rbraceChar then some (.obj [], r2) else parseObjFields fuel rest
        | [] => none
      else none

/-- Parse one or more comma-separated array elements and the closing `]`. -/
def parseArrElems : Nat → List Char → Option (JSVal × List Char)
  | 0, _ => none
  | fuel + 1, l =>
    match parseVal fuel l with
    | none => none
    | some (v, r) =>
      match skipWs r with
      | c :: r2 =>
        if c == ',' then
          match parseArrElems fuel r2 with
          | some (.arr vs, rr) => some (.arr (v :: vs), rr)
          | _ => none
        else if c == ']' then some (.arr [v], r2)
        else none
      | [] => none

/-- Parse one or more `"key": value` members and the closing brace. -/
def parseObjFields : Nat → List Char → Option (JSVal × List Char)
  | 0, _ => none
  | fuel + 1, l =>
    match skipWs l with
    | c :: r =>
      if c == '"' then
        match parseStringBody r with
        | none => none
        | some (k, r2) =>
          match skipWs r2 with
          | c3 :: r3 =>
            if c3 == ':' then
              match parseVal fuel r3 with
              | none => none
              | some (v, r4) =>
                match skipWs r4 with
                | c5 :: r5 =>
                  if c5 == ',' then
                    match parseObjFields fuel r5 with
                    | some (.obj fs, rr) => some (.obj ((⟨k⟩, v) :: fs), rr)
                    | _ => none
                  else if c5 == rbraceChar then some (.obj [(⟨k⟩, v)], r5)
                  else none
                | [] => none
            else none
          | [] => none
      else none
    | [] => none
end

/-- Model of `JSON.parse`: succeeds when the whole input is one JSON value
surrounded only by whitespace. -/
def jsonParse (s : String) : Except String JSVal :=
  let l := s.data
  match parseVal (2 * l.length + 2) l with
  | none => .error "Unexpected token in JSON"
  | some (v, rest) =>
    if (skipWs rest).isEmpty then .ok v
    else .error "Unexpected non-whitespace character after JSON data"

structure ParseResult where
  success : Bool
  config : Option JSVal := none
  errors : Option (List String) := none

/-- `parseConfig` from `src/core.js`. -/
def parseConfig (jsonString : String) : ParseResult :=
  match jsonParse jsonString with
  | .error msg => { success := false, errors := some ["Invalid JSON: " ++ msg] }
  | .ok config =>
    let validation := validateConfig config
    if !validation.valid then { success := false, errors := some validation.errors }
    else { success := true, config := some config }

-- ============================================================================
-- String / list infrastructure lemmas
-- ============================================================================

def strStartsWith (s p : String) : Bool := isPre p.data s.data

def strEndsWith (s p : String) : Bool := isPre p.data.reverse s.data.reverse

theorem isPre_refl (l : List Char) : isPre l l = true := by
  induction l with
  | nil => rfl
  | cons c cs ih => simp [isPre, ih]

theorem isPre_append_self (n t : List Char) : isPre n (n ++ t) = true := by
  induction n with
  | nil => rfl
  | cons c cs ih => simp [isPre, ih]

theorem isPre_extend (n : List Char) :
    ∀ h t, isPre n h = true → isPre n (h ++ t) = true := by
  induction n with
  | nil => intro h t _; rfl
  | cons c cs ih =>
    intro h t hp
    cases h with
    | nil => simp [isPre] at hp
    | cons b bs =>
      simp [isPre] at hp ⊢
      exact ⟨hp.1, ih bs t hp.2⟩

theorem isPre_append_both (a : List Char) {c d : List Char}
    (h : isPre c d = true) : isPre (a ++ c) (a ++ d) = true := by
  induction a with
  | nil => exact h
  | cons x xs ih => simpa [isPre] using ih

theorem hasInfix_of_isPre {h n : List Char} (hp : isPre n h = true) :
    hasInfix h n = true := by
  cases h with
  | nil => exact hp
  | cons c t => simp [hasInfix, hp]

theorem hasInfix_cons {h n : List Char} (c : Char) (ih : hasInfix h n = true) :
    hasInfix (c :: h) n = true := by
  simp [hasInfix, ih]

theorem hasInfix_append_left (x : List Char) {h n : List Char}
    (hh : hasInfix h n = true) : hasInfix (x ++ h) n = true := by
  induction x with
  | nil => exact hh
  | cons c cs ih => exact hasInfix_cons c ih

theorem eq_nil_of_hasInfix_nil {n : List Char} (h : hasInfix [] n = true) : n = [] := by
  cases n with
  | nil => rfl
  | cons c cs => simp [hasInfix, isPre] at h

theorem hasInfix_extend {h n : List Char} (t : List Char) (hh : hasInfix h n = true) :
    hasInfix (h ++ t) n = true := by
  induction h with
  | nil =>
    have hn : n = [] := eq_nil_of_hasInfix_nil hh
    subst hn
    exact hasInfix_of_isPre (by cases t <;> rfl)
  | cons c cs ih =>
    simp only [hasInfix, Bool.or_eq_true] at hh
    rcases hh with hp | hh
    · exact hasInfix_of_isPre (isPre_extend _ _ _ hp)
    · simpa using hasInfix_cons c (ih hh)

theorem strContains_appendL {t n : String} (s : String) (h : strContains t n = true) :
    strContains (s ++ t) n = true := by
  unfold strContains at *
  rw [String.data_append]
  exact hasInfix_append_left _ h

theorem strContains_appendR {s n : String} (t : String) (h : strContains s n = true) :
    strContains (s ++ t) n = true := by
  unfold strContains at *
  rw [String.data_append]
  exact hasInfix_extend _ h

theorem strContains_self (s : String) : strContains s s = true :=
  hasInfix_of_isPre (isPre_refl s.data)

theorem strContains_of_startsWith {s p : String} (h : strStartsWith s p = true) :
    strContains s p = true :=
  hasInfix_of_isPre h

theorem strStartsWith_append (p t : String) : strStartsWith (p ++ t) p = true := by
  unfold strStartsWith
  rw [String.data_append]
  exact isPre_append_self _ _

theorem strStartsWith_extend {s p : String} (t : String) (h : strStartsWith s p = true) :
    strStartsWith (s ++ t) p = true := by
  unfold strStartsWith at *
  rw [String.data_append]
  exact isPre_extend _ _ _ h

theorem strStartsWith_append_of (a : String) {c d : String}
    (h : strStartsWith c d = true) : strStartsWith (a ++ c) (a ++ d) = true := by
  unfold strStartsWith at *
  rw [String.data_append, String.data_append]
  exact isPre_append_both _ h

theorem strEndsWith_append (x p : String) : strEndsWith (x ++ p) p = true := by
  unfold strEndsWith
  rw [String.data_append]
  rw [List.reverse_append]
  exact isPre_append_self _ _

-- ============================================================================
-- Specification-side notions used to state the claims
-- ============================================================================

/-- "A non-null object" in the JavaScript sense (`typeof v === 'object'`
and `v !== null`). -/
def isNonNullObject : JSVal → Bool
  | .obj _ => true
  | .arr _ => true
  | _ => false

/-- A nullish value (`null` or `undefined`). -/
def nullish : JSVal → Bool
  | .null => true
  | .undefined => true
  | _ => false

/-- The spec's `a ?? b` (nullish coalescing), in contrast to the code's
truthiness-based `a || b`. -/
def jsCoalesce (a b : JSVal) : JSVal :=
  if nullish a then b else a

/-- The data model's "optional URL string": the field is absent, `null`,
or a string accepted by `new URL`. -/
def nullishOrURL : JSVal → Bool
  | .undefined => true
  | .null => true
  | .str s => validURLString s
  | _ => false

/-- The data model's `installers` shape: absent, or a map whose values
are URL strings. -/
def installersWF : JSVal → Bool
  | .undefined => true
  | .obj fields => fields.all (fun kv =>
      match kv.2 with
      | .str s => validURLString s
      | _ => false)
  | _ => false

/-- Key presence in a mapping ("`installers[p]` is set"). -/
def lookupKey? (v : JSVal) (k : String) : Option JSVal :=
  match v with
  | .obj fields => lookupField fields k
  | _ => none

/-- The spec's fallback resolution `config.fallback ?? config.homepage ?? null`. -/
def specFallback (config : JSVal) : JSVal :=
  jsCoalesce (getField config "fallback") (jsCoalesce (getField config "homepage") .null)

/-- The spec's classification of a user agent: case-insensitive substring
matching in the fixed priority order, first match wins. -/
def specClassify (s : String) : String :=
  let ua := toLowerStr s
  if strContains ua "mac" || strContains ua "darwin" ||
      strContains ua "iphone" || strContains ua "ipad" then "darwin"
  else if strContains ua "linux" || strContains ua "android" then "linux"
  else if strContains ua "win" then "win32"
  else "unknown"

/-- The spec's per-key validation outcome: the platform-name check and the
URL-syntax check, run independently. -/
def installerKeyErrors (installers : JSVal) (platform : String) : List String :=
  (if PLATFORM_ORDER.contains platform then [] else [invalidPlatformMsg platform]) ++
  (if isValidURL (getField installers platform) then [] else [invalidURLMsg platform])

/-- The name-check errors of the Validator, for stating where installer
errors sit in the accumulated list. -/
def nameCheckErrors (config : JSVal) : List String :=
  if !truthy (getField config "name") || typeOf (getField config "name") != "string" then
    ["name is required and must be a string"]
  else []

/-- The spec's target-URL resolution order for snippets: the explicit
`installURL` if provided, else the homepage, else the first installer
found walking `PLATFORM_ORDER`, else the first value in the map's
iteration order, else `null`. -/
def specTargetURL (installURL homepage installers : JSVal) : JSVal :=
  if nullish installURL then
    if nullish homepage then
      match PLATFORM_ORDER.findSome? (fun p => lookupKey? installers p) with
      | some u => u
      | none =>
        match (objValues installers).head? with
        | some v => v
        | none => .null
    else homepage
  else installURL

-- ============================================================================
-- Generic accumulation lemma for the validator's forEach loop
-- ============================================================================

theorem foldl_append_step (f : String → List String) :
    ∀ (keys : List String) (acc : List String),
      keys.foldl (fun errs k => errs ++ f k) acc = acc ++ keys.flatMap f := by
  intro keys
  induction keys with
  | nil => intro acc; simp
  | cons k ks ih =>
    intro acc
    rw [List.foldl_cons, ih, List.flatMap_cons, List.append_assoc]

-- ============================================================================
-- C3: the validator's object gate and the valid-iff-no-errors invariant
-- ============================================================================

/-- C3: for every candidate that is not a non-null object, `validateConfig`
returns exactly `valid=false` with the single error "Config must be an
object" and performs no further checks; for every non-null object, the
result is valid iff the accumulated error list is empty. -/
theorem validateConfig_object_gate :
    (∀ c : JSVal, isNonNullObject c = false →
      validateConfig c = { valid := false, errors := ["Config must be an object"] }) ∧
    (∀ c : JSVal, isNonNullObject c = true →
      ((validateConfig c).valid = true ↔ (validateConfig c).errors = [])) := by
  constructor
  · intro c hc
    cases c <;> simp_all [validateConfig, isNonNullObject, truthy, typeOf]
  · intro c hc
    cases c <;> simp_all [validateConfig, isNonNullObject, truthy, typeOf,
      List.length_eq_zero]

/-- Witness for C3 at concrete inputs. -/
theorem validateConfig_object_gate_witness :
    (isNonNullObject (JSVal.str "nope") = false ∧
      validateConfig (.str "nope")
        = { valid := false, errors := ["Config must be an object"] }) ∧
    (isNonNullObject (JSVal.obj []) = true ∧
      ((validateConfig (.obj [])).valid = true ↔ (validateConfig (.obj [])).errors = [])) :=
  ⟨⟨rfl, validateConfig_object_gate.1 _ rfl⟩, ⟨rfl, validateConfig_object_gate.2 _ rfl⟩⟩

-- ============================================================================
-- C2: totality and priority order of detectOS
-- ============================================================================

theorem detectOS_eq_specClassify (s : String) : detectOS (some s) = specClassify s := by
  by_cases h : s = ""
  · subst h; rfl
  · simp [detectOS, specClassify, h]

theorem hasInfix_ne_nil {h n : List Char} (hh : hasInfix h n = true) (hn : n ≠ []) :
    h ≠ [] := by
  intro he
  subst he
  exact hn (eq_nil_of_hasInfix_nil hh)

/-- C2: `detectOS` is total with the four possible outputs; `null`/missing
and empty inputs give `unknown`; the classification is exactly the
case-insensitive substring priority chain of the spec; and a user agent
containing `darwin` maps to `darwin` even when it also contains `win`. -/
theorem detectOS_total_and_priority :
    (∀ ua : Option String, detectOS ua = "darwin" ∨ detectOS ua = "linux" ∨
      detectOS ua = "win32" ∨ detectOS ua = "unknown") ∧
    detectOS none = "unknown" ∧
    detectOS (some "") = "unknown" ∧
    (∀ s : String, detectOS (some s) = specClassify s) ∧
    (∀ s : String, strContains (toLowerStr s) "darwin" = true ∧
      strContains (toLowerStr s) "win" = true → detectOS (some s) = "darwin") := by
  refine ⟨?_, rfl, rfl, detectOS_eq_specClassify, ?_⟩
  · intro ua
    rcases ua with _ | s
    · simp [detectOS]
    · rw [detectOS_eq_specClassify]
      simp only [specClassify]
      split
      · simp
      · split
        · simp
        · split <;> simp
  · intro s hs
    have hne : s ≠ "" := by
      intro he
      subst he
      have : ("darwin".data : List Char) = [] :=
        eq_nil_of_hasInfix_nil (by simpa [strContains, toLowerStr] using hs.1)
      simp at this
    simp [detectOS, hne, hs.1]

/-- Witness for C2's conditional parts at a concrete user agent. -/
theorem detectOS_total_and_priority_witness :
    (strContains (toLowerStr "Darwin-Windows box") "darwin" = true ∧
      strContains (toLowerStr "Darwin-Windows box") "win" = true) ∧
    detectOS (some "Darwin-Windows box") = "darwin" :=
  ⟨⟨by decide, by decide⟩,
    detectOS_total_and_priority.2.2.2.2 "Darwin-Windows box" ⟨by decide, by decide⟩⟩

-- ============================================================================
-- C9: validateConfig reads only `name` and `installers`
-- ============================================================================

theorem validateConfig_gate_false {c : JSVal} (hc : isNonNullObject c = true) :
    (!truthy c || typeOf c != "object") = false := by
  cases c <;> simp_all [isNonNullObject, truthy, typeOf]

/-- C9: for any two non-null-object candidates agreeing on `name` and
`installers`, validation results coincide (homepage, fallback, and badge
never interfere); in particular a config with arbitrary values in those
three fields still validates when `name` and `installers` pass. -/
theorem validateConfig_noninterference :
    (∀ c1 c2 : JSVal, isNonNullObject c1 = true → isNonNullObject c2 = true →
      getField c1 "name" = getField c2 "name" →
      getField c1 "installers" = getField c2 "installers" →
      validateConfig c1 = validateConfig c2) ∧
    (∀ hp fb bd : JSVal,
      validateConfig (.obj [("name", .str "X"),
        ("installers", .obj [("darwin", .str "https://a/b")]),
        ("homepage", hp), ("fallback", fb), ("badge", bd)])
        = { valid := true, errors := [] }) := by
  constructor
  · intro c1 c2 h1 h2 hn hi
    unfold validateConfig
    rw [validateConfig_gate_false h1, validateConfig_gate_false h2]
    rw [hn, hi]
  · intro hp fb bd
    rfl

/-- Witness for C9 on two concrete configs differing only in `homepage`. -/
theorem validateConfig_noninterference_witness :
    (isNonNullObject (JSVal.obj [("name", .str "X"), ("installers", .obj []),
        ("homepage", .bool true)]) = true ∧
      isNonNullObject (JSVal.obj [("name", .str "X"), ("installers", .obj []),
        ("homepage", .null)]) = true) ∧
    validateConfig (.obj [("name", .str "X"), ("installers", .obj []),
        ("homepage", .bool true)])
      = validateConfig (.obj [("name", .str "X"), ("installers", .obj []),
        ("homepage", .null)]) :=
  ⟨⟨rfl, rfl⟩, validateConfig_noninterference.1 _ _ rfl rfl rfl rfl⟩

-- ============================================================================
-- C1: install-target resolution
-- ============================================================================

theorem jsOr_obj (fs : List (String × JSVal)) (b : JSVal) : jsOr (.obj fs) b = .obj fs := rfl

theorem jsOr_undef (b : JSVal) : jsOr .undefined b = b := rfl

theorem jsOr_null (b : JSVal) : jsOr .null b = b := rfl

theorem validURLString_ne_empty {s : String} (h : validURLString s = true) : s ≠ "" := by
  intro he
  rw [he] at h
  exact absurd h (by decide)

theorem truthy_of_validURL {s : String} (h : validURLString s = true) :
    truthy (.str s) = true := by
  have hne := validURLString_ne_empty h
  simp [truthy, hne]

/-- Installer values under the data model are truthy URL strings. -/
theorem lookupField_installersWF {fields : List (String × JSVal)} {p : String} {u : JSVal}
    (hwf : installersWF (.obj fields) = true) (hu : lookupField fields p = some u) :
    ∃ s, u = JSVal.str s ∧ validURLString s = true := by
  unfold lookupField at hu
  cases hfind : fields.find? (fun kv => kv.1 == p) with
  | none => rw [hfind] at hu; exact absurd hu (by simp)
  | some kv =>
    rw [hfind] at hu
    have hall0 : fields.all (fun kv =>
        match kv.2 with
        | JSVal.str s => validURLString s
        | _ => false) = true := hwf
    have hmem := List.mem_of_find?_eq_some hfind
    have hp := List.all_eq_true.mp hall0 kv hmem
    obtain ⟨k0, v0⟩ := kv
    have hkv : v0 = u := by simpa using hu
    cases v0 with
    | str s => exact ⟨s, hkv.symm, by simpa using hp⟩
    | undefined => simp at hp
    | null => simp at hp
    | bool b => simp at hp
    | arr xs => simp at hp
    | obj fs => simp at hp

/-- The code's `config.fallback || config.homepage || null` agrees with the
spec's `config.fallback ?? config.homepage ?? null` on the data-model
domain (each field absent, null, or a URL string). -/
theorem fallback_or_eq_specFallback (config : JSVal)
    (hfb : nullishOrURL (getField config "fallback") = true)
    (hhp : nullishOrURL (getField config "homepage") = true) :
    jsOr (jsOr (getField config "fallback") (getField config "homepage")) .null
      = specFallback config := by
  unfold specFallback
  have hinner : jsOr (getField config "homepage") .null
      = jsCoalesce (getField config "homepage") .null := by
    cases hh : getField config "homepage" with
    | undefined => rfl
    | null => rfl
    | str s =>
      rw [hh] at hhp
      have := truthy_of_validURL (by simpa [nullishOrURL] using hhp)
      simp [jsOr, jsCoalesce, nullish, this]
    | _ => rw [hh] at hhp; simp [nullishOrURL] at hhp
  cases hf : getField config "fallback" with
  | undefined => simpa [jsOr, jsCoalesce, truthy, nullish] using hinner
  | null => simpa [jsOr, jsCoalesce, truthy, nullish] using hinner
  | str s =>
    rw [hf] at hfb
    have := truthy_of_validURL (by simpa [nullishOrURL] using hfb)
    simp [jsOr, jsCoalesce, nullish, this]
  | _ => rw [hf] at hfb; simp [nullishOrURL] at hfb

/-- C1: on the data-model domain, `getInstallTarget config p` returns
`available=true, platform=p, url=installers[p]` (and no fallback) exactly
when `installers[p]` is set, and otherwise `available=false, platform=p`
with `fallback = config.fallback ?? config.homepage ?? null` (and no url),
also when the `installers` map is absent. -/
theorem getInstallTarget_spec (config : JSVal) (p : String)
    (_hobj : isNonNullObject config = true)
    (hinst : installersWF (getField config "installers") = true)
    (hfb : nullishOrURL (getField config "fallback") = true)
    (hhp : nullishOrURL (getField config "homepage") = true) :
    (∀ u, lookupKey? (getField config "installers") p = some u →
      getInstallTarget config p
        = { available := true, platform := p, url := some u, fallback := none }) ∧
    (lookupKey? (getField config "installers") p = none →
      getInstallTarget config p
        = { available := false, platform := p, url := none,
            fallback := some (specFallback config) }) := by
  constructor
  · intro u hu
    unfold lookupKey? at hu
    cases hI : getField config "installers" with
    | obj fields =>
      rw [hI] at hu hinst
      have hu2 : lookupField fields p = some u := hu
      obtain ⟨s, hus, hvalid⟩ := lookupField_installersWF hinst hu2
      have htru : truthy u = true := by rw [hus]; exact truthy_of_validURL hvalid
      have hGF : getField (JSVal.obj fields) p = u := by
        show (lookupField fields p).getD .undefined = u
        rw [hu2]
        rfl
      simp only [getInstallTarget, hI]
      rw [jsOr_obj, hGF, htru]
      simp
    | undefined => rw [hI] at hu; simp at hu
    | null => rw [hI] at hu; simp at hu
    | bool b => rw [hI] at hu; simp at hu
    | str s => rw [hI] at hu; simp at hu
    | arr xs => rw [hI] at hu; simp at hu
  · intro hnone
    have hfall := fallback_or_eq_specFallback config hfb hhp
    unfold lookupKey? at hnone
    cases hI : getField config "installers" with
    | obj fields =>
      rw [hI] at hnone hinst
      have hnone2 : lookupField fields p = none := hnone
      have hGF : getField (JSVal.obj fields) p = .undefined := by
        show (lookupField fields p).getD .undefined = .undefined
        rw [hnone2]
        rfl
      simp only [getInstallTarget, hI]
      rw [jsOr_obj, hGF, hfall]
      simp [truthy]
    | undefined =>
      have hGF : getField (JSVal.obj []) p = .undefined := by
        show (lookupField [] p).getD .undefined = .undefined
        rfl
      simp only [getInstallTarget, hI]
      rw [jsOr_undef, hGF, hfall]
      simp [truthy]
    | null => rw [hI] at hinst; simp [installersWF] at hinst
    | bool b => rw [hI] at hinst; simp [installersWF] at hinst
    | str s => rw [hI] at hinst; simp [installersWF] at hinst
    | arr xs => rw [hI] at hinst; simp [installersWF] at hinst

/-- Witness for C1 on the test-suite config, resolved for `win32`. -/
theorem getInstallTarget_spec_witness :
    (isNonNullObject (JSVal.obj [("name", .str "TestApp"),
        ("installers", .obj [("darwin", .str "https://example.com/app.dmg")]),
        ("fallback", .str "https://example.com/download")]) = true ∧
      lookupKey? (getField (JSVal.obj [("name", .str "TestApp"),
        ("installers", .obj [("darwin", .str "https://example.com/app.dmg")]),
        ("fallback", .str "https://example.com/download")]) "installers") "win32" = none) ∧
    getInstallTarget (.obj [("name", .str "TestApp"),
        ("installers", .obj [("darwin", .str "https://example.com/app.dmg")]),
        ("fallback", .str "https://example.com/download")]) "win32"
      = { available := false, platform := "win32", url := none,
          fallback := some (.str "https://example.com/download") } := by
  refine ⟨⟨rfl, rfl⟩, ?_⟩
  have h := (getInstallTarget_spec (.obj [("name", .str "TestApp"),
    ("installers", .obj [("darwin", .str "https://example.com/app.dmg")]),
    ("fallback", .str "https://example.com/download")]) "win32"
    rfl (by decide) (by decide) (by decide)).2 rfl
  exact h

-- ============================================================================
-- C4: both per-key checks run independently for every key
-- ============================================================================

/-- C4: with a non-empty installers object, the accumulated errors are the
name-check errors followed by, per key in the mapping's key order, the
errors of both per-key checks; a key that fails both checks contributes
exactly its two errors, and a failing key does not stop the remaining
keys (the flatMap shape covers every key). -/
theorem validateConfig_per_key_checks (config : JSVal) (fields : List (String × JSVal))
    (hobj : isNonNullObject config = true)
    (hI : getField config "installers" = .obj fields) (hne : fields ≠ []) :
    (validateConfig config).errors
      = nameCheckErrors config
        ++ (fields.map (fun kv => kv.1)).flatMap (installerKeyErrors (.obj fields)) ∧
    (∀ k, PLATFORM_ORDER.contains k = false →
      isValidURL (getField (JSVal.obj fields) k) = false →
      installerKeyErrors (.obj fields) k = [invalidPlatformMsg k, invalidURLMsg k]) := by
  constructor
  · have hfun : (fun (errs : List String) (platform : String) =>
        let errsB := if !(PLATFORM_ORDER.contains platform) then
          errs ++ [invalidPlatformMsg platform] else errs
        if !isValidURL (getField (JSVal.obj fields) platform) then
          errsB ++ [invalidURLMsg platform] else errsB)
        = (fun errs platform => errs ++ installerKeyErrors (.obj fields) platform) := by
      funext errs k
      cases hc : PLATFORM_ORDER.contains k <;>
        cases hv : isValidURL (getField (JSVal.obj fields) k) <;>
        simp only [installerKeyErrors, hc, hv, Bool.not_false, Bool.not_true,
          Bool.false_eq_true, if_true, if_false] <;> simp
    unfold validateConfig
    rw [validateConfig_gate_false hobj]
    simp only [Bool.false_eq_true, if_false]
    rw [hI]
    have hlen : ((fields.map (fun kv => kv.1)).length == 0) = false := by
      simp [List.length_eq_zero, hne]
    simp only [truthy, typeOf, objKeys, Bool.not_true, Bool.false_or, bne_self_eq_false,
      Bool.or_false, Bool.false_eq_true, if_false, hlen]
    rw [hfun, foldl_append_step]
    simp [nameCheckErrors, truthy, typeOf]
  · intro k h1 h2
    unfold installerKeyErrors
    rw [h1, h2]
    simp

-- ============================================================================
-- C5: snippet target-URL resolution order
-- ============================================================================

theorem jsOr_truthy {a : JSVal} (h : truthy a = true) (b : JSVal) : jsOr a b = a := by
  simp [jsOr, h]

/-- `getFirstInstaller` walks `PLATFORM_ORDER` and then falls back to the
first value in iteration order, matching the spec's description on the
data-model domain. -/
theorem getFirstInstaller_spec (installers : JSVal) (hwf : installersWF installers = true) :
    getFirstInstaller installers
      = (match PLATFORM_ORDER.findSome? (fun p => lookupKey? installers p) with
        | some u => u
        | none =>
          match (objValues installers).head? with
          | some v => v
          | none => JSVal.null) := by
  cases installers with
  | undefined => rfl
  | null => simp [installersWF] at hwf
  | bool b => simp [installersWF] at hwf
  | str s => simp [installersWF] at hwf
  | arr xs => simp [installersWF] at hwf
  | obj fields =>
    have hval : ∀ p u, lookupField fields p = some u → truthy u = true := by
      intro p u hu
      obtain ⟨s, rfl, hv⟩ := lookupField_installersWF hwf hu
      exact truthy_of_validURL hv
    cases hd : lookupField fields "darwin" with
    | some u =>
      simp [getFirstInstaller, PLATFORM_ORDER, List.find?, List.findSome?, lookupKey?,
        getField, hd, hval _ _ hd, show truthy JSVal.undefined = false from rfl]
    | none =>
      cases hw : lookupField fields "win32" with
      | some u =>
        simp [getFirstInstaller, PLATFORM_ORDER, List.find?, List.findSome?, lookupKey?,
          getField, hd, hw, hval _ _ hw, show truthy JSVal.undefined = false from rfl]
      | none =>
        cases hl : lookupField fields "linux" with
        | some u =>
          simp [getFirstInstaller, PLATFORM_ORDER, List.find?, List.findSome?, lookupKey?,
            getField, hd, hw, hl, hval _ _ hl, show truthy JSVal.undefined = false from rfl]
        | none =>
          cases fields with
          | nil => rfl
          | cons kv r =>
            have hall : (kv :: r).all (fun kv =>
                match kv.2 with
                | JSVal.str s => validURLString s
                | _ => false) = true := hwf
            have hp := List.all_eq_true.mp hall kv (by simp)
            obtain ⟨k0, v0⟩ := kv
            cases v0 with
            | str s =>
              have htr : truthy (JSVal.str s) = true :=
                truthy_of_validURL (by simpa using hp)
              simp [getFirstInstaller, PLATFORM_ORDER, List.find?, List.findSome?,
                lookupKey?, getField, objValues, hd, hw, hl, jsOr, htr,
                show truthy JSVal.undefined = false from rfl]
            | undefined => simp at hp
            | null => simp at hp
            | bool b => simp at hp
            | arr xs => simp at hp
            | obj fs => simp at hp

/-- The code's `installURL || config.homepage || getFirstInstaller(...)`
agrees with the spec's resolution order on the data-model domain. -/
theorem targetURL_eq_spec (iu hpv inst : JSVal)
    (h1 : nullishOrURL iu = true) (h2 : nullishOrURL hpv = true)
    (h3 : installersWF inst = true) :
    jsOr (jsOr iu hpv) (getFirstInstaller inst) = specTargetURL iu hpv inst := by
  cases iu with
  | undefined =>
    rw [jsOr_undef]
    cases hpv with
    | undefined =>
      rw [jsOr_undef]
      rw [getFirstInstaller_spec inst h3]
      rfl
    | null =>
      rw [jsOr_null]
      rw [getFirstInstaller_spec inst h3]
      rfl
    | str s =>
      have := truthy_of_validURL (by simpa [nullishOrURL] using h2)
      rw [jsOr_truthy this]
      simp [specTargetURL, nullish]
    | bool b => simp [nullishOrURL] at h2
    | arr xs => simp [nullishOrURL] at h2
    | obj fs => simp [nullishOrURL] at h2
  | null =>
    rw [jsOr_null]
    cases hpv with
    | undefined =>
      rw [jsOr_undef]
      rw [getFirstInstaller_spec inst h3]
      rfl
    | null =>
      rw [jsOr_null]
      rw [getFirstInstaller_spec inst h3]
      rfl
    | str s =>
      have := truthy_of_validURL (by simpa [nullishOrURL] using h2)
      rw [jsOr_truthy this]
      simp [specTargetURL, nullish]
    | bool b => simp [nullishOrURL] at h2
    | arr xs => simp [nullishOrURL] at h2
    | obj fs => simp [nullishOrURL] at h2
  | str s =>
    have hts := truthy_of_validURL (by simpa [nullishOrURL] using h1)
    rw [jsOr_truthy hts, jsOr_truthy hts]
    simp [specTargetURL, nullish]
  | bool b => simp [nullishOrURL] at h1
  | arr xs => simp [nullishOrURL] at h1
  | obj fs => simp [nullishOrURL] at h1

/-- C5: on the data-model domain, the markdown snippet links to the target
chosen by the spec's resolution order (installURL, else homepage, else the
`PLATFORM_ORDER` walk, else the first map value, else null); it contains
the literal `[![Install <name>]`; and with no installURL and no homepage
the darwin installer wins over any other entry. -/
theorem generateSnippets_target_order (config : JSVal) (badgePath : String)
    (installURL : JSVal)
    (hiu : nullishOrURL installURL = true)
    (hhp : nullishOrURL (getField config "homepage") = true)
    (hinst : installersWF (getField config "installers") = true) :
    (generateSnippets config badgePath installURL).1
      = "[![Install " ++ jsToString (getField config "name") ++ "](" ++ badgePath
        ++ ")](" ++ jsToString (specTargetURL installURL (getField config "homepage")
            (getField config "installers")) ++ ")" ∧
    strContains (generateSnippets config badgePath installURL).1
      ("[![Install " ++ jsToString (getField config "name") ++ "]") = true ∧
    (∀ fields u, getField config "installers" = .obj fields →
      lookupField fields "darwin" = some u → nullish installURL = true →
      nullish (getField config "homepage") = true →
      specTargetURL installURL (getField config "homepage")
        (getField config "installers") = u) := by
  refine ⟨?_, ?_, ?_⟩
  · show "[![Install " ++ jsToString (getField config "name") ++ "](" ++ badgePath
        ++ ")](" ++ jsToString (jsOr (jsOr installURL (getField config "homepage"))
          (getFirstInstaller (getField config "installers"))) ++ ")" = _
    rw [targetURL_eq_spec _ _ _ hiu hhp hinst]
  · exact strContains_of_startsWith (strStartsWith_extend _ (strStartsWith_extend _
      (strStartsWith_extend _ (strStartsWith_extend _ (strStartsWith_append_of
        ("[![Install " ++ jsToString (getField config "name"))
        (show strStartsWith "](" "]" = true by decide))))))
  · intro fields u hIeq hlk hn1 hn2
    simp [specTargetURL, hn1, hn2, hIeq, PLATFORM_ORDER, List.findSome?, lookupKey?, hlk]

/-- Witness for C5 on the test-suite config with darwin and linux
installers and no homepage. -/
theorem generateSnippets_target_order_witness :
    (generateSnippets (.obj [("name", .str "TestApp"),
        ("installers", .obj [("linux", .str "https://example.com/linux"),
          ("darwin", .str "https://example.com/mac")])]) "./install-badge.svg" .null).1
      = "[![Install " ++ jsToString (getField (JSVal.obj [("name", .str "TestApp"),
          ("installers", .obj [("linux", .str "https://example.com/linux"),
            ("darwin", .str "https://example.com/mac")])]) "name")
        ++ "](" ++ "./install-badge.svg" ++ ")]("
        ++ jsToString (specTargetURL .null (getField (JSVal.obj [("name", .str "TestApp"),
            ("installers", .obj [("linux", .str "https://example.com/linux"),
              ("darwin", .str "https://example.com/mac")])]) "homepage")
            (getField (JSVal.obj [("name", .str "TestApp"),
            ("installers", .obj [("linux", .str "https://example.com/linux"),
              ("darwin", .str "https://example.com/mac")])]) "installers")) ++ ")" :=
  (generateSnippets_target_order (.obj [("name", .str "TestApp"),
      ("installers", .obj [("linux", .str "https://example.com/linux"),
        ("darwin", .str "https://example.com/mac")])]) "./install-badge.svg" .null
    rfl rfl (by decide)).1

-- ============================================================================
-- C10: the literal text "null" lands in the snippets when nothing resolves
-- ============================================================================

theorem strEndsWith_extendL (s : String) {t p : String} (h : strEndsWith t p = true) :
    strEndsWith (s ++ t) p = true := by
  unfold strEndsWith at *
  rw [String.data_append, List.reverse_append]
  exact isPre_extend _ _ _ h

theorem strEndsWith_append_of (a : String) {c d : String}
    (h : strEndsWith c d = true) : strEndsWith (c ++ a) (d ++ a) = true := by
  unfold strEndsWith at *
  rw [String.data_append, String.data_append, List.reverse_append, List.reverse_append]
  exact isPre_append_both _ h

/-- C10: with no installURL, no homepage, and an empty or absent installers
map, the resolved target is `null` and both snippets embed the literal text
`null`: the markdown ends in `](null)` and the html contains `href="null"`. -/
theorem generateSnippets_null_target (config : JSVal) (badgePath : String)
    (hhp : nullish (getField config "homepage") = true)
    (hinst : getField config "installers" = .obj [] ∨
      getField config "installers" = .undefined) :
    jsOr (jsOr JSVal.null (getField config "homepage"))
      (getFirstInstaller (getField config "installers")) = .null ∧
    strEndsWith (generateSnippets config badgePath .null).1 "](null)" = true ∧
    strContains (generateSnippets config badgePath .null).2 "href=\"null\"" = true := by
  have ht : jsOr (jsOr JSVal.null (getField config "homepage"))
      (getFirstInstaller (getField config "installers")) = .null := by
    rw [jsOr_null]
    have hgfi : getFirstInstaller (getField config "installers") = .null := by
      rcases hinst with hI | hI <;> rw [hI] <;> rfl
    cases hh : getField config "homepage" with
    | undefined => rw [jsOr_undef, hgfi]
    | null => rw [jsOr_null, hgfi]
    | bool b => rw [hh] at hhp; simp [nullish] at hhp
    | str s => rw [hh] at hhp; simp [nullish] at hhp
    | arr xs => rw [hh] at hhp; simp [nullish] at hhp
    | obj fs => rw [hh] at hhp; simp [nullish] at hhp
  refine ⟨ht, ?_, ?_⟩
  · show strEndsWith ("[![Install " ++ jsToString (getField config "name") ++ "]("
      ++ badgePath ++ ")](" ++ jsToString (jsOr (jsOr JSVal.null
        (getField config "homepage")) (getFirstInstaller
        (getField config "installers"))) ++ ")") "](null)" = true
    rw [ht]
    exact strEndsWith_append_of ")" (strEndsWith_append_of "null"
      (strEndsWith_extendL ("[![Install " ++ jsToString (getField config "name")
        ++ "](" ++ badgePath) (show strEndsWith ")](" "](" = true by decide)))
  · show strContains ("<a href=\"" ++ jsToString (jsOr (jsOr JSVal.null
        (getField config "homepage")) (getFirstInstaller
        (getField config "installers"))) ++ "\">\n  <img src=\"" ++ badgePath
        ++ "\" alt=\"Install " ++ jsToString (getField config "name")
        ++ "\" />\n</a>") "href=\"null\"" = true
    rw [ht]
    apply strContains_appendR
    apply strContains_appendR
    apply strContains_appendR
    apply strContains_appendR
    decide

/-- Witness for C10 at a concrete config without homepage or installers. -/
theorem generateSnippets_null_target_witness :
    (nullish (getField (JSVal.obj [("name", .str "X")]) "homepage") = true ∧
      getField (JSVal.obj [("name", .str "X")]) "installers" = .undefined) ∧
    strEndsWith (generateSnippets (.obj [("name", .str "X")])
      "./install-badge.svg" .null).1 "](null)" = true ∧
    strContains (generateSnippets (.obj [("name", .str "X")])
      "./install-badge.svg" .null).2 "href=\"null\"" = true :=
  ⟨⟨rfl, rfl⟩,
    (generateSnippets_null_target (.obj [("name", .str "X")]) "./install-badge.svg"
      rfl (Or.inr rfl)).2⟩

-- ============================================================================
-- C7: badge widths and literal content
-- ============================================================================

/-- C7: for a string-named config (with string label/color after the
defaults), the badge renders, starts with an `<svg ... width="W"` header
whose `W` is `len(label)*6+10 + len(name)*7+10`, and contains `<svg`, the
label, the name, and the color verbatim. -/
theorem generateBadge_widths_and_content (config : JSVal) (name label color : String)
    (hname : getField config "name" = .str name)
    (hl : jsOr (getField (jsOr (getField config "badge") (.obj [])) "label")
      (.str "Install") = .str label)
    (hc : jsOr (getField (jsOr (getField config "badge") (.obj [])) "color")
      (.str "#0366d6") = .str color) :
    ∃ svg, generateBadge config = some svg ∧
      strStartsWith svg ("<svg xmlns=\"http://www.w3.org/2000/svg\" width=\""
        ++ toString (label.length * 6 + 10 + (name.length * 7 + 10)) ++ "\"") = true ∧
      strContains svg "<svg" = true ∧
      strContains svg label = true ∧
      strContains svg name = true ∧
      strContains svg color = true := by
  simp only [generateBadge, hname, hl, hc, jsLen, optAdd, showNum, Option.map_some']
  cases hst : isFlatStyle (jsOr (getField (jsOr (getField config "badge") (.obj []))
      "style") (.str "flat")) with
  | true =>
    simp only [hst, if_true]
    refine ⟨_, rfl, ?_, ?_, ?_, ?_, ?_⟩
    · simp only [jsToString]
      iterate 30 apply strStartsWith_extend
      apply strStartsWith_append_of
      decide
    · simp only [jsToString]
      iterate 32 apply strContains_appendR
      decide
    · simp only [jsToString]
      iterate 9 apply strContains_appendR
      apply strContains_appendL
      exact strContains_self _
    · simp only [jsToString]
      apply strContains_appendR
      apply strContains_appendL
      exact strContains_self _
    · simp only [jsToString]
      iterate 25 apply strContains_appendR
      apply strContains_appendL
      exact strContains_self _
  | false =>
    simp only [hst, Bool.false_eq_true, if_false]
    refine ⟨_, rfl, ?_, ?_, ?_, ?_, ?_⟩
    · simp only [jsToString]
      iterate 16 apply strStartsWith_extend
      apply strStartsWith_append_of
      decide
    · simp only [jsToString]
      iterate 18 apply strContains_appendR
      decide
    · simp only [jsToString]
      iterate 5 apply strContains_appendR
      apply strContains_appendL
      exact strContains_self _
    · simp only [jsToString]
      apply strContains_appendR
      apply strContains_appendL
      exact strContains_self _
    · simp only [jsToString]
      iterate 9 apply strContains_appendR
      apply strContains_appendL
      exact strContains_self _

/-- Witness for C7 on the custom-badge test config. -/
theorem generateBadge_widths_and_content_witness :
    ∃ svg, generateBadge (.obj [("name", .str "T"),
        ("badge", .obj [("label", .str "Download"), ("color", .str "#ff0000")])])
      = some svg ∧
      strStartsWith svg ("<svg xmlns=\"http://www.w3.org/2000/svg\" width=\""
        ++ toString ("Download".length * 6 + 10 + ("T".length * 7 + 10)) ++ "\"") = true ∧
      strContains svg "<svg" = true ∧
      strContains svg "Download" = true ∧
      strContains svg "T" = true ∧
      strContains svg "#ff0000" = true :=
  generateBadge_widths_and_content (.obj [("name", .str "T"),
    ("badge", .obj [("label", .str "Download"), ("color", .str "#ff0000")])])
    "T" "Download" "#ff0000" rfl rfl rfl

-- ============================================================================
-- C8: createTemplate always validates
-- ============================================================================

/-- In the template URLs the authority is the fixed `github.com`, so URL
parsing succeeds whatever follows the last concrete slash. -/
theorem validURL_github_prefix (t : List Char) :
    validURLChars ("https://github.com/user/repo/releases/latest/download/".data ++ t)
      = true := rfl

theorem validURL_template (n suffix : String) :
    validURLString ("https://github.com/user/repo/releases/latest/download/"
      ++ n ++ suffix) = true := by
  unfold validURLString
  rw [String.data_append, String.data_append, List.append_assoc]
  exact validURL_github_prefix _

/-- C8: for every non-empty appName, the template validates with zero
errors; its name is the appName; it has one syntactically valid installer
URL per canonical platform (even for names with spaces); and it carries a
homepage, a fallback, and the default badge fields. -/
theorem createTemplate_always_valid (appName : String) (h : appName ≠ "") :
    validateConfig (createTemplate appName) = { valid := true, errors := [] } ∧
    getField (createTemplate appName) "name" = .str appName ∧
    (∀ p, p ∈ PLATFORM_ORDER →
      ∃ u, lookupKey? (getField (createTemplate appName) "installers") p
        = some (.str u) ∧ validURLString u = true) ∧
    getField (createTemplate appName) "homepage"
      = .str "https://github.com/user/repo" ∧
    getField (createTemplate appName) "fallback"
      = .str "https://github.com/user/repo/releases" ∧
    getField (createTemplate appName) "badge"
      = .obj [("label", .str "Install"), ("color", .str "#0366d6"),
        ("style", .str "flat")] := by
  refine ⟨?_, rfl, ?_, rfl, rfl, rfl⟩
  · simp [validateConfig, createTemplate, getField, lookupField, List.find?, truthy,
      typeOf, objKeys, PLATFORM_ORDER, isValidURL, h,
      validURL_template appName "-macOS.dmg", validURL_template appName "-windows.exe",
      validURL_template appName "-linux.AppImage"]
  · intro p hp
    simp only [PLATFORM_ORDER, List.mem_cons, List.not_mem_nil, or_false] at hp
    rcases hp with rfl | rfl | rfl
    · exact ⟨_, rfl, validURL_template appName "-macOS.dmg"⟩
    · exact ⟨_, rfl, validURL_template appName "-windows.exe"⟩
    · exact ⟨_, rfl, validURL_template appName "-linux.AppImage"⟩

/-- Witness for C8 at an appName containing a space. -/
theorem createTemplate_always_valid_witness :
    ("My App" : String) ≠ "" ∧
    validateConfig (createTemplate "My App") = { valid := true, errors := [] } :=
  ⟨by decide, (createTemplate_always_valid "My App" (by decide)).1⟩

/-- Witness for C4: a single key that is neither a platform nor maps to a
URL contributes exactly its two errors, in a config with a passing name. -/
theorem validateConfig_per_key_checks_witness :
    (validateConfig (.obj [("name", .str "T"),
        ("installers", .obj [("weird", .bool true)])])).errors
      = nameCheckErrors (.obj [("name", .str "T"),
          ("installers", .obj [("weird", .bool true)])])
        ++ ((([("weird", JSVal.bool true)]).map (fun kv => kv.1)).flatMap
            (installerKeyErrors (.obj [("weird", .bool true)]))) ∧
    (∀ k, PLATFORM_ORDER.contains k = false →
      isValidURL (getField (JSVal.obj [("weird", JSVal.bool true)]) k) = false →
      installerKeyErrors (.obj [("weird", .bool true)]) k
        = [invalidPlatformMsg k, invalidURLMsg k]) :=
  validateConfig_per_key_checks _ _ rfl rfl (by simp)

-- ============================================================================
-- C6: JSON round trip through parseConfig
-- ============================================================================

theorem psb_quote (X : List Char) : parseStringBody ('"' :: X) = some ([], X) := by
  rw [ parseStringBody.eq_def]; simp

theorem psb_esc_quote (X : List Char) : parseStringBody ('\\' :: '"' :: X)
    = (parseStringBody X).map (fun p => ('"' :: p.1, p.2)) := by
  rw [ parseStringBody.eq_def]; simp

theorem psb_esc_bs (X : List Char) : parseStringBody ('\\' :: '\\' :: X)
    = (parseStringBody X).map (fun p => ('\\' :: p.1, p.2)) := by
  rw [ parseStringBody.eq_def]; simp

theorem psb_esc_u (h1 h2 h3 h4 : Char) (X : List Char) :
    parseStringBody ('\\' :: 'u' :: h1 :: h2 :: h3 :: h4 :: X)
    = (match hexVal? h1, hexVal? h2, hexVal? h3, hexVal? h4 with
      | some a, some b, some c2, some d =>
        (parseStringBody X).map
          (fun p => (Char.ofNat (a * 4096 + b * 256 + c2 * 16 + d) :: p.1, p.2))
      | _, _, _, _ => none) := by
  rw [ parseStringBody.eq_def]; simp

theorem psb_plain (c : Char) (X : List Char) (h1 : (c == '"') = false)
    (h2 : (c == '\\') = false) (h3 : ¬ c.toNat < 32) :
    parseStringBody (c :: X) = (parseStringBody X).map (fun p => (c :: p.1, p.2)) := by
  rw [ parseStringBody.eq_def]; simp [h1, h2, h3]

theorem hexVal_hexDigit (n : Nat) (h : n < 16) : hexVal? (hexDigit n) = some n := by
  interval_cases n <;> decide

theorem parseStringBody_print (l : List Char) :
    ∀ rest, parseStringBody (l.flatMap escChar ++ '"' :: rest) = some (l, rest) := by
  induction l with
  | nil =>
    intro rest
    simp only [List.flatMap_nil, List.nil_append]
    exact psb_quote rest
  | cons c cs ih =>
    intro rest
    have hsplit : (c :: cs).flatMap escChar ++ '"' :: rest
        = escChar c ++ (cs.flatMap escChar ++ '"' :: rest) := by
      simp [List.flatMap_cons, List.append_assoc]
    rw [hsplit]
    by_cases h1 : c = '"'
    · subst h1
      rw [show escChar '"' = ['\\', '"'] from rfl]
      simp only [List.cons_append, List.nil_append]
      rw [psb_esc_quote, ih rest]
      rfl
    · by_cases h2 : c = '\\'
      · subst h2
        rw [show escChar '\\' = ['\\', '\\'] from rfl]
        simp only [List.cons_append, List.nil_append]
        rw [psb_esc_bs, ih rest]
        rfl
      · by_cases h3 : c.toNat < 32
        · have hesc : escChar c
              = ['\\', 'u', '0', '0', hexDigit (c.toNat / 16), hexDigit (c.toNat % 16)] := by
            simp [escChar, h1, h2, h3]
          rw [hesc]
          simp only [List.cons_append, List.nil_append]
          rw [psb_esc_u]
          rw [show hexVal? '0' = some 0 from rfl]
          rw [hexVal_hexDigit _ (by omega), hexVal_hexDigit _ (by omega)]
          rw [ih rest]
          have harith : 0 * 4096 + 0 * 256 + c.toNat / 16 * 16 + c.toNat % 16 = c.toNat := by
            omega
          simp only [harith, Char.ofNat_toNat]
          rfl
        · have hesc : escChar c = [c] := by simp [escChar, h1, h2, h3]
          rw [hesc]
          simp only [List.cons_append, List.nil_append]
          rw [psb_plain c _ (by simp [h1]) (by simp [h2]) h3, ih rest]
          rfl

theorem jsonFuel_pos (v : JSVal) : 1 ≤ jsonFuel v := by
  cases v <;> simp [jsonFuel]

mutual
theorem jsonFuel_le_print (v : JSVal) : jsonFuel v + 2 ≤ 2 * (printJson v).length := by
  cases v with
  | undefined => simp [jsonFuel, printJson]
  | null => simp [jsonFuel, printJson]
  | bool b => cases b <;> simp [jsonFuel, printJson]
  | str s =>
    simp only [jsonFuel, printJson, printStr]
    simp
    omega
  | arr xs =>
    have h := jsonFuelElems_le_print xs
    simp only [jsonFuel, printJson, List.length_cons, List.length_append]
    simp
    omega
  | obj fs =>
    have h := jsonFuelFields_le_print fs
    simp only [jsonFuel, printJson, List.length_cons, List.length_append]
    simp
    omega

theorem jsonFuelElems_le_print (xs : List JSVal) :
    jsonFuelElems xs ≤ 2 * (printElems xs).length := by
  match xs with
  | [] => simp [jsonFuelElems]
  | [v] =>
    have h := jsonFuel_le_print v
    simp only [jsonFuelElems, printElems]
    omega
  | v :: w :: r =>
    have h1 := jsonFuel_le_print v
    have h2 := jsonFuelElems_le_print (w :: r)
    have ha : jsonFuelElems (v :: w :: r) = jsonFuel v + jsonFuelElems (w :: r) + 2 := by
      conv_lhs => rw [jsonFuelElems]
    have hb : (printElems (v :: w :: r)).length
        = (printJson v).length + 1 + (printElems (w :: r)).length := by
      rw [printElems]
      · simp [List.length_append]
        omega
      · simp
    rw [ha, hb]
    omega

theorem jsonFuelFields_le_print (fs : List (String × JSVal)) :
    jsonFuelFields fs ≤ 2 * (printFields fs).length := by
  match fs with
  | [] => simp [jsonFuelFields]
  | [(k, v)] =>
    have h := jsonFuel_le_print v
    simp only [jsonFuelFields, printFields, List.length_append, List.length_cons]
    omega
  | (k, v) :: kv :: r =>
    have h1 := jsonFuel_le_print v
    have h2 := jsonFuelFields_le_print (kv :: r)
    have ha : jsonFuelFields ((k, v) :: kv :: r)
        = jsonFuel v + jsonFuelFields (kv :: r) + 2 := by
      conv_lhs => rw [jsonFuelFields]
    have hb : (printFields ((k, v) :: kv :: r)).length
        = (printStr k).length + 1 + (printJson v).length + 1
          + (printFields (kv :: r)).length := by
      rw [printFields]
      · simp [List.length_append]
        omega
      · simp
    rw [ha, hb]
    omega
end

theorem skipWs_cons {c : Char} (l : List Char) (h : isWsChar c = false) :
    skipWs (c :: l) = c :: l := by
  simp [skipWs, List.dropWhile, h]

theorem pv_arr (g : Nat) (c : Char) (Y : List Char)
    (hnws : isWsChar c = false) (hnb : (c == ']') = false) :
    parseVal (g + 1) ('[' :: c :: Y) = parseArrElems g (c :: Y) := by
  simp only [parseVal]
  simp [skipWs_cons _ (show isWsChar '[' = false from rfl), skipWs_cons _ hnws, hnb]

theorem pv_obj (g : Nat) (c : Char) (Y : List Char)
    (hnws : isWsChar c = false) (hnb : (c == rbraceChar) = false) :
    parseVal (g + 1) (lbraceChar :: c :: Y) = parseObjFields g (c :: Y) := by
  simp only [parseVal]
  simp [skipWs_cons _ (show isWsChar lbraceChar = false from rfl),
    skipWs_cons _ hnws, hnb,
    show ¬ lbraceChar = '\"' from by decide, show ¬ lbraceChar = 't' from by decide,
    show ¬ lbraceChar = 'f' from by decide, show ¬ lbraceChar = 'n' from by decide,
    show ¬ lbraceChar = '[' from by decide,
    show (lbraceChar == lbraceChar) = true from by decide]

theorem printJson_head (v : JSVal) : ∃ c t, printJson v = c :: t ∧ isWsChar c = false
    ∧ (c == ']') = false ∧ (c == rbraceChar) = false := by
  cases v with
  | undefined => exact ⟨'n', ['u','l','l'], by simp [printJson], by decide, by decide, by decide⟩
  | null => exact ⟨'n', ['u','l','l'], by simp [printJson], by decide, by decide, by decide⟩
  | bool b =>
    cases b
    · exact ⟨'f', ['a','l','s','e'], by simp [printJson], by decide, by decide, by decide⟩
    · exact ⟨'t', ['r','u','e'], by simp [printJson], by decide, by decide, by decide⟩
  | str s =>
    exact ⟨'"', s.data.flatMap escChar ++ ['"'], by simp [printJson, printStr],
      by decide, by decide, by decide⟩
  | arr xs =>
    exact ⟨'[', printElems xs ++ [']'], by simp [printJson], by decide, by decide, by decide⟩
  | obj fs =>
    exact ⟨lbraceChar, printFields fs ++ [rbraceChar], by simp [printJson],
      by decide, by decide, by decide⟩

theorem printElems_cons (x : JSVal) (l : List JSVal) :
    ∃ t2, printElems (x :: l) = printJson x ++ t2 := by
  cases l with
  | nil => exact ⟨[], by simp [printElems]⟩
  | cons w r => exact ⟨',' :: printElems (w :: r), by simp [printElems]⟩

theorem printFields_head (k : String) (v : JSVal) (l : List (String × JSVal)) :
    ∃ t2, printFields ((k, v) :: l) = '"' :: t2 := by
  cases l with
  | nil =>
    exact ⟨k.data.flatMap escChar ++ '"' :: ':' :: printJson v,
      by simp [printFields, printStr]⟩
  | cons g2 r =>
    exact ⟨k.data.flatMap escChar ++ '"' :: ':' :: (printJson v ++ ',' :: printFields (g2 :: r)),
      by simp [printFields, printStr]⟩

theorem parse_print (fuel : Nat) :
    (∀ v rest, noUndefined v = true → jsonFuel v ≤ fuel →
      parseVal fuel (printJson v ++ rest) = some (v, rest)) ∧
    (∀ xs rest, xs ≠ [] → noUndefinedElems xs = true → jsonFuelElems xs < fuel →
      parseArrElems fuel (printElems xs ++ ']' :: rest) = some (.arr xs, rest)) ∧
    (∀ fs rest, fs ≠ [] → noUndefinedFields fs = true → jsonFuelFields fs < fuel →
      parseObjFields fuel (printFields fs ++ rbraceChar :: rest) = some (.obj fs, rest)) := by
  induction fuel with
  | zero =>
    refine ⟨?_, ?_, ?_⟩
    · intro v rest _ hfl
      have := jsonFuel_pos v
      omega
    · intro xs rest _ _ hfl
      omega
    · intro fs rest _ _ hfl
      omega
  | succ g ih =>
    obtain ⟨ihV, ihA, ihO⟩ := ih
    refine ⟨?_, ?_, ?_⟩
    · intro v rest hnu hfl
      cases v with
      | undefined => simp [noUndefined] at hnu
      | null => rfl
      | bool b => cases b <;> rfl
      | str s =>
        have h : printJson (.str s) ++ rest
            = '"' :: (s.data.flatMap escChar ++ '"' :: rest) := by
          simp [printJson, printStr, List.append_assoc]
        rw [h]
        show (parseStringBody (s.data.flatMap escChar ++ '"' :: rest)).map
          (fun p => (JSVal.str ⟨p.1⟩, p.2)) = some (.str s, rest)
        rw [parseStringBody_print s.data rest]
        rfl
      | arr xs =>
        cases xs with
        | nil => rfl
        | cons x xs2 =>
          have hnu2 : noUndefinedElems (x :: xs2) = true := by simpa [noUndefined] using hnu
          have hje : jsonFuel (JSVal.arr (x :: xs2)) = jsonFuelElems (x :: xs2) + 2 := by
            simp [jsonFuel]
          obtain ⟨t2, ht2⟩ := printElems_cons x xs2
          obtain ⟨c, t, hpc, hnws, hnb, hnb2⟩ := printJson_head x
          have hX : printElems (x :: xs2) ++ ']' :: rest
              = c :: (t ++ (t2 ++ ']' :: rest)) := by
            rw [ht2, hpc]
            simp [List.append_assoc]
          have hshape : printJson (.arr (x :: xs2)) ++ rest
              = '[' :: (printElems (x :: xs2) ++ ']' :: rest) := by
            simp [printJson, List.append_assoc]
          rw [hshape, hX, pv_arr g c _ hnws hnb, ← hX]
          exact ihA (x :: xs2) rest (by simp) hnu2 (by omega)
      | obj fs =>
        cases fs with
        | nil => rfl
        | cons kv fs2 =>
          obtain ⟨k, v0⟩ := kv
          have hnu2 : noUndefinedFields ((k, v0) :: fs2) = true := by simpa [noUndefined] using hnu
          have hje : jsonFuel (JSVal.obj ((k, v0) :: fs2))
              = jsonFuelFields ((k, v0) :: fs2) + 2 := by
            simp [jsonFuel]
          obtain ⟨t2, ht2⟩ := printFields_head k v0 fs2
          have hX : printFields ((k, v0) :: fs2) ++ rbraceChar :: rest
              = '"' :: (t2 ++ rbraceChar :: rest) := by
            rw [ht2]
            simp [List.append_assoc]
          have hshape : printJson (.obj ((k, v0) :: fs2)) ++ rest
              = lbraceChar :: (printFields ((k, v0) :: fs2) ++ rbraceChar :: rest) := by
            simp [printJson, List.append_assoc]
          rw [hshape, hX, pv_obj g '"' _ (by decide) (by decide), ← hX]
          exact ihO ((k, v0) :: fs2) rest (by simp) hnu2 (by omega)
    · intro xs rest hne hnu hfl
      cases xs with
      | nil => exact absurd rfl hne
      | cons v vs =>
        have hnuv : noUndefined v = true ∧ noUndefinedElems vs = true := by
          simpa [noUndefinedElems, Bool.and_eq_true] using hnu
        have hje : jsonFuelElems (v :: vs) = jsonFuel v + jsonFuelElems vs + 2 := by
          simp [jsonFuelElems]
        cases vs with
        | nil =>
          have hsh : printElems [v] ++ ']' :: rest = printJson v ++ ']' :: rest := by
            simp [printElems]
          rw [hsh]
          simp only [parseArrElems]
          rw [ihV v (']' :: rest) hnuv.1 (by omega)]
          simp [skipWs_cons _ (show isWsChar ']' = false from rfl)]
        | cons w ws =>
          have hp0 := jsonFuel_pos v
          have hje2 : jsonFuelElems (w :: ws) = jsonFuel w + jsonFuelElems ws + 2 := by
            simp [jsonFuelElems]
          have hp1 := jsonFuel_pos w
          have hsh : printElems (v :: w :: ws) ++ ']' :: rest
              = printJson v ++ (',' :: (printElems (w :: ws) ++ ']' :: rest)) := by
            simp [printElems, List.append_assoc]
          rw [hsh]
          simp only [parseArrElems]
          rw [ihV v _ hnuv.1 (by omega)]
          have hrec := ihA (w :: ws) rest (by simp) hnuv.2 (by omega)
          simp [skipWs_cons _ (show isWsChar ',' = false from rfl), hrec]
    · intro fs rest hne hnu hfl
      cases fs with
      | nil => exact absurd rfl hne
      | cons kv gs =>
        obtain ⟨k, v0⟩ := kv
        have hnuv : noUndefined v0 = true ∧ noUndefinedFields gs = true := by
          simpa [noUndefinedFields, Bool.and_eq_true] using hnu
        have hje : jsonFuelFields ((k, v0) :: gs)
            = jsonFuel v0 + jsonFuelFields gs + 2 := by
          simp [jsonFuelFields]
        cases gs with
        | nil =>
          have hsh : printFields [(k, v0)] ++ rbraceChar :: rest
              = '"' :: (k.data.flatMap escChar ++ '"'
                :: (':' :: (printJson v0 ++ rbraceChar :: rest))) := by
            simp [printFields, printStr, List.append_assoc]
          rw [hsh]
          simp only [parseObjFields]
          have h1 := parseStringBody_print k.data
            (':' :: (printJson v0 ++ rbraceChar :: rest))
          have h2 := ihV v0 (rbraceChar :: rest) hnuv.1 (by omega)
          simp [skipWs_cons _ (show isWsChar '"' = false from rfl),
            skipWs_cons _ (show isWsChar ':' = false from rfl),
            skipWs_cons _ (show isWsChar rbraceChar = false from rfl),
            h1, h2, show (rbraceChar == ',') = false from by decide,
            show (rbraceChar == rbraceChar) = true from rfl,
            show (String.mk k.data) = k from rfl]
        | cons g2 gs2 =>
          have hp0 := jsonFuel_pos v0
          have hje2 : jsonFuelFields (g2 :: gs2)
              = jsonFuel g2.2 + jsonFuelFields gs2 + 2 := by
            simp [jsonFuelFields]
          have hp1 := jsonFuel_pos g2.2
          have hsh : printFields ((k, v0) :: g2 :: gs2) ++ rbraceChar :: rest
              = '"' :: (k.data.flatMap escChar ++ '"'
                :: (':' :: (printJson v0
                  ++ ',' :: (printFields (g2 :: gs2) ++ rbraceChar :: rest)))) := by
            simp [printFields, printStr, List.append_assoc]
          rw [hsh]
          simp only [parseObjFields]
          have h1 := parseStringBody_print k.data
            (':' :: (printJson v0 ++ ',' :: (printFields (g2 :: gs2) ++ rbraceChar :: rest)))
          have h2 := ihV v0
            (',' :: (printFields (g2 :: gs2) ++ rbraceChar :: rest)) hnuv.1 (by omega)
          have h3 := ihO (g2 :: gs2) rest (by simp) hnuv.2 (by omega)
          simp [skipWs_cons _ (show isWsChar '"' = false from rfl),
            skipWs_cons _ (show isWsChar ':' = false from rfl),
            skipWs_cons _ (show isWsChar ',' = false from rfl),
            h1, h2, h3, show (String.mk k.data) = k from rfl]

theorem jsonParse_stringify (v : JSVal) (h : noUndefined v = true) :
    jsonParse (jsonStringify v) = .ok v := by
  unfold jsonParse jsonStringify
  have hfuel : jsonFuel v ≤ 2 * (printJson v).length + 2 := by
    have := jsonFuel_le_print v
    omega
  have hmain := (parse_print (2 * (printJson v).length + 2)).1 v [] h hfuel
  rw [List.append_nil] at hmain
  simp only [show (String.mk (printJson v)).data = printJson v from rfl]
  rw [hmain]
  simp [skipWs]

/-- C6: serializing any valid (undefined-free) configuration and parsing
it back succeeds with a structurally equal config; and every input that
fails to deserialize yields `success=false` with a single error entry
containing "Invalid JSON", never an exception. -/
theorem parseConfig_roundtrip :
    (∀ c : JSVal, noUndefined c = true → (validateConfig c).valid = true →
      parseConfig (jsonStringify c)
        = { success := true, config := some c, errors := none }) ∧
    (∀ s m, jsonParse s = .error m →
      (parseConfig s).success = false ∧
      ∃ e, (parseConfig s).errors = some [e] ∧ strContains e "Invalid JSON" = true) := by
  constructor
  · intro c hnu hval
    unfold parseConfig
    rw [jsonParse_stringify c hnu]
    simp [hval]
  · intro s m herr
    unfold parseConfig
    rw [herr]
    exact ⟨rfl, "Invalid JSON: " ++ m, rfl,
      strContains_of_startsWith (strStartsWith_extend m
        (show strStartsWith "Invalid JSON: " "Invalid JSON" = true by decide))⟩


/-- Witness for C6: round trip on a concrete valid config, and the
invalid-JSON scenario from the test suite. -/
theorem parseConfig_roundtrip_witness :
    (noUndefined (JSVal.obj [("name", .str "TestApp"),
        ("installers", .obj [("darwin", .str "https://example.com/app.dmg")])]) = true ∧
      (validateConfig (.obj [("name", .str "TestApp"),
        ("installers", .obj [("darwin", .str "https://example.com/app.dmg")])])).valid
        = true ∧
      jsonParse "\x7b invalid json \x7d" = .error "Unexpected token in JSON") ∧
    parseConfig (jsonStringify (.obj [("name", .str "TestApp"),
        ("installers", .obj [("darwin", .str "https://example.com/app.dmg")])]))
      = { success := true,
          config := some (.obj [("name", .str "TestApp"),
            ("installers", .obj [("darwin", .str "https://example.com/app.dmg")])]),
          errors := none } ∧
    (parseConfig "\x7b invalid json \x7d").success = false ∧
    (∃ e, (parseConfig "\x7b invalid json \x7d").errors = some [e] ∧
      strContains e "Invalid JSON" = true) :=
  ⟨⟨by decide, by decide, rfl⟩,
    parseConfig_roundtrip.1 _ (by decide) (by decide),
    (parseConfig_roundtrip.2 "\x7b invalid json \x7d" "Unexpected token in JSON" rfl).1,
    (parseConfig_roundtrip.2 "\x7b invalid json \x7d" "Unexpected token in JSON" rfl).2⟩
